import Mathlib

/-!
Shallow embedding of `glotaran_converter_lib` (src/src/lib.rs) and proofs about
its conversion pipeline.

The library converts instrument export files into Glotaran "wavelength explicit"
ASCII files.  Its three entry points, `run_lfp`, `run_das6` and `run_r4`, are
modelled here over parsed csv records (`List (List String)`): the csv crate's
reading layer (delimiters, quoting on input, IO) is outside the program text
being verified, so each embedded function receives the records a successful
read would yield.  The csv crate's `has_headers` setting defaults to `true`,
so the first record of a file is consumed as the csv header row and iteration
with `records()` starts at the second record; the embeddings reflect this.

Rust partiality is modelled explicitly: a function that can panic or return
early yields `Option`/`RunResult` values, with `none`/`RunResult.panicked`
standing for a panic and `RunResult.err` for an error value returned to the
caller through `Result`.
-/

/-- The regex `(\d){3}` of `lib.rs`: leftmost run of three consecutive decimal
digits of a character list, if any.  (The regex crate matches Unicode decimal
digits; instrument headers are ASCII, and `Char.isDigit` models the ASCII
digits `0`-`9`.) -/
def find3Digits : List Char → Option String
  | a :: b :: c :: rest =>
    if a.isDigit && b.isDigit && c.isDigit then some (String.mk [a, b, c])
    else find3Digits (b :: c :: rest)
  | _ => none

/-- `re.find(col)` / `re.captures(rec)` for the regex `(\d){3}`, returning the
matched text. -/
def extract3 (s : String) : Option String := find3Digits s.data

/-- Monadic map over `Option`, written out structurally: `none` as soon as one
element fails.  Used to model loops whose body can panic. -/
def optionMapList {α β : Type} (f : α → Option β) : List α → Option (List β)
  | [] => some []
  | a :: l =>
    match f a with
    | none => none
    | some b =>
      match optionMapList f l with
      | none => none
      | some bs => some (b :: bs)

/-- `write_to_file`'s `line_number - 1` (line 212 of lib.rs) is a `usize`
subtraction: for `line_number = 0` it underflows (a panic in debug builds, a
wrap to `2^64 - 1` in release builds), so no well-formed interval count is
produced; this is modelled as `none`. -/
def writeIntervalnr (line_number : Nat) : Option Nat :=
  if line_number = 0 then none else some (line_number - 1)

/-- Field quoting of the csv writer (`QuoteStyle::Necessary` with delimiter
`\t`): a field containing the delimiter, a quote or a line break is quoted,
with inner quotes doubled. -/
def quoteTsvField (s : String) : String :=
  if s.data.any (fun c => c = '\t' || c = '"' || c = '\n' || c = '\r') then
    "\"" ++ String.mk (s.data.foldr (fun c acc => if c = '"' then '"' :: '"' :: acc else c :: acc) []) ++ "\""
  else s

/-- One tab-delimited record as written by `csv::WriterBuilder::new().delimiter(b'\t')`. -/
def renderRecordTsv (cells : List String) : String :=
  String.intercalate "\t" (cells.map quoteTsvField) ++ "\n"

/-- The text `write_to_file` (lib.rs lines 191-226) appends to the output file:
the four preamble lines (filename, author, format marker, `intervalnr`)
followed by the tab-delimited header record and body records.  `none` models
the `usize` underflow panic of `line_number - 1` when `line_number = 0`. -/
def write_to_file_content (headers : List String) (body : List (List String))
    (line_number : Nat) (output_filename : String) : Option String :=
  (writeIntervalnr line_number).map (fun iv =>
    output_filename ++ "\n" ++ "Eduardo Gonik" ++ "\n" ++ "wavelength explicit" ++ "\n" ++
    "intervalnr " ++ toString iv ++ "\n" ++
    renderRecordTsv headers ++ String.join (body.map renderRecordTsv))

/-- `write_to_file` as a transformation of the output file's content: the file
is opened with `OpenOptions::new().append(true).create(true)` (and re-opened
append-only for the table), so the new content is the old content with the
rendered text appended. -/
def write_to_file (prior : String) (headers : List String) (body : List (List String))
    (line_number : Nat) (output_filename : String) : Option String :=
  (write_to_file_content headers body line_number output_filename).map (fun c => prior ++ c)

/-- Split a character list on a separator character; always returns at least
one (possibly empty) component. -/
def splitOnChar (sep : Char) : List Char → List (List Char)
  | [] => [[]]
  | c :: rest =>
    let r := splitOnChar sep rest
    if c = sep then [] :: r else (c :: r.headD []) :: r.tail

/-- Rust `Path::file_name` on Unix-style paths: the final component, unless the
path is empty or ends in `..` (normal components only; `.` and empty components
are skipped). -/
def rustFileName (s : String) : Option String :=
  let comps := (splitOnChar '/' s.data).filter (fun c => !(c.isEmpty || c == ['.']))
  match comps.getLast? with
  | none => none
  | some last => if last = ['.', '.'] then none else some (String.mk last)

/-- The characters of a file name strictly before its last `.`, provided that
`.` is not the leading character (Rust's `Path::file_stem` convention: a
leading-dot name such as `.txt` has no extension). -/
def lastDotSplit (cs : List Char) : Option (List Char) :=
  match ((List.range cs.length).filter (fun i => cs.getD i ' ' = '.')).getLast? with
  | none => none
  | some 0 => none
  | some i => some (cs.take i)

/-- Rust `Path::with_extension("ascii")` applied to a bare file name: replace
the extension (or append `.ascii` when there is none). -/
def rustStemAscii (name : String) : String :=
  match lastDotSplit name.data with
  | none => name ++ ".ascii"
  | some stem => String.mk stem ++ ".ascii"

/-- The output-filename computation shared by `run_lfp` (lines 34-39) and
`run_r4` (lines 122-127):
`Path::new(source).with_extension("ascii").file_name().unwrap()`.
Note `file_name()` keeps only the final path component, so any directory
prefix of `source` is dropped; `none` models the `unwrap` panic when the path
has no file name. -/
def ascii_output_filename (source : String) : Option String :=
  (rustFileName source).map rustStemAscii

/-- Header extraction of `run_lfp` (lines 47-53): each cell of the raw header
record is mapped to its 3-digit run, or to `""` when there is no match. -/
def lfp_headers (headerRecord : List String) : List String :=
  headerRecord.map (fun col =>
    match extract3 col with
    | some mtch => mtch
    | none => "")

/-- The reading phase of `run_lfp` (lines 41-58).  The csv reader is built with
the default `has_headers = true`, so the file's first record is consumed as the
csv header; `rdr.records().next().unwrap()` therefore yields the file's
second record, which is what header extraction is applied to, and
`rdr.records().skip(8)` yields the records from the eleventh file record on.
`none` models the `unwrap` panic when no record follows the csv header row. -/
def lfp_parse (records : List (List String)) : Option (List String × List (List String)) :=
  match records with
  | _ :: r1 :: rest => some (lfp_headers r1, rest.drop 8)
  | _ => none

/-- `run_lfp` (lines 33-68) over the parsed records of the source file,
returning the output filename, the extracted headers, the body and the
`intervalnr` value written in the fourth preamble line.  `none` models a
panic (missing record, or `usize` underflow of `headers.len() - 1` /
`line_number - 1`). -/
def run_lfp (source : String) (records : List (List String)) :
    Option (String × List String × List (List String) × Nat) :=
  match ascii_output_filename source with
  | none => none
  | some out =>
    match lfp_parse records with
    | none => none
    | some (headers, body) =>
      if headers.isEmpty then none
      else
        match writeIntervalnr (headers.length - 1) with
        | none => none
        | some iv => some (out, headers, body, iv)

/-- Truncation toward zero of a rational, as Rust's `as i32` cast does for an
in-range `f32` value. -/
def truncQ (q : ℚ) : Int := Int.tdiv q.num q.den

/-- The synthesized time value of `run_das6` (line 102):
`((n as f32 - sync_delay) * ns_per_chn) as i32`.  The `f32` arithmetic is
modelled exactly over `ℚ` (faithful whenever the operands and intermediate
results are exactly representable, as for the instrument's integral
parameters). -/
def das6_time (n : Nat) (sync_delay ns_per_chn : ℚ) : Int :=
  truncQ (((n : ℚ) - sync_delay) * ns_per_chn)

/-- The body-row transformation of `run_das6` (lines 95-106): insert the
synthesized time at position 0, then `line.remove(1)`.  After the insertion,
index 1 holds the record's original first cell, so that is the cell removed.
`Vec::remove(1)` panics when the vector has fewer than two elements
(i.e. when the input record is empty); this is modelled as `none`. -/
def das6_process_record (n : Nat) (sync_delay ns_per_chn : ℚ) (record : List String) :
    Option (List String) :=
  let line := toString (das6_time n sync_delay ns_per_chn) :: record
  if 2 ≤ line.length then some (line.eraseIdx 1) else none

/-- The `for (n, record) in rdr.records().enumerate()` loop of `run_das6`,
starting at index `n`. -/
def das6_body_from (sync_delay ns_per_chn : ℚ) : Nat → List (List String) → Option (List (List String))
  | _, [] => some []
  | n, record :: rest =>
    match das6_process_record n sync_delay ns_per_chn record with
    | none => none
    | some row =>
      match das6_body_from sync_delay ns_per_chn (n + 1) rest with
      | none => none
      | some rows => some (row :: rows)

/-- The body built by `run_das6` from the data records (0-based enumeration). -/
def das6_body (sync_delay ns_per_chn : ℚ) (records : List (List String)) :
    Option (List (List String)) :=
  das6_body_from sync_delay ns_per_chn 0 records

/-- Per-cell header handling of `run_das6` (lines 110-113):
`filter_map` over `re.captures(rec)`.  When the regex does not match the cell
is dropped (`None`); when it matches, `caps.get(0)` is the overall match and
is always present, so `map_or(Some("0"), ...)` always takes the `Some` branch
and the `"0"` default is dead code. -/
def das6_header_label (cell : String) : Option String :=
  match extract3 cell with
  | none => none
  | some mtch => some mtch

/-- The header sequence built by `run_das6` (lines 107-115): the `filter_map`
over the raw header cells followed by `headers.push("")`. -/
def das6_headers (headerRecord : List String) : List String :=
  headerRecord.filterMap das6_header_label ++ [""]

/-- The `intervalnr` value `run_das6` causes `write_to_file` to emit: the
writer is called with `line_number = headers.len()` (line 116) and writes
`line_number - 1`. -/
def das6_intervalnr (headerRecord : List String) : Option Nat :=
  writeIntervalnr (das6_headers headerRecord).length

/-- `run_das6` (lines 83-119) over the parsed header record and data records,
returning the output filename and the content appended to the output file. -/
def run_das6 (sync_delay ns_per_chn : ℚ) (headerRecord : List String)
    (records : List (List String)) (output_filename : String) (prior : String) :
    Option (String × String) :=
  match das6_body sync_delay ns_per_chn records with
  | none => none
  | some body =>
    let headers := das6_headers headerRecord
    match write_to_file prior headers body headers.length output_filename with
    | none => none
    | some content => some (output_filename, content)

/-- Value of an ASCII decimal digit. -/
def digitVal (c : Char) : Option Nat :=
  if c.isDigit then some (c.toNat - 48) else none

/-- Accumulating parse of a digit string. -/
def digitsValAux : Nat → List Char → Option Nat
  | acc, [] => some acc
  | acc, c :: rest =>
    match digitVal c with
    | none => none
    | some d => digitsValAux (acc * 10 + d) rest

/-- Parse of a non-empty all-digit character list. -/
def parseNatDigits : List Char → Option Nat
  | [] => none
  | cs => digitsValAux 0 cs

/-- Rust's integer `from_str`: optional sign followed by at least one ASCII
digit. -/
def parseIntRust (s : String) : Option Int :=
  match s.data with
  | '+' :: rest => (parseNatDigits rest).map (fun n => (n : Int))
  | '-' :: rest => (parseNatDigits rest).map (fun n => -(n : Int))
  | cs => (parseNatDigits cs).map (fun n => (n : Int))

/-- `str::parse::<i32>`: `parseIntRust` restricted to the `i32` range. -/
def parseI32 (s : String) : Option Int :=
  (parseIntRust s).bind (fun v =>
    if -2147483648 ≤ v ∧ v < 2147483648 then some v else none)

/-- The label of a column accumulator: its first element
(`row.first().unwrap()` — the accumulators are seeded with a header cell and
hence never empty). -/
def r4_label (col : List String) : String := col.headD ""

/-- The sort key of `run_r4` (lines 147-157): the literal label `"t"` gets key
`0`; any other label must parse as an `i32`, and a parse failure is the
`expect("Couldn't parse wavelength")` panic, modelled as `none`. -/
def r4_key (label : String) : Option Int :=
  if label = "t" then some 0 else parseI32 label

/-- The column accumulators of `run_r4` (lines 132-142): accumulator `i` is
header cell `i` followed by cell `i` of every data record. -/
def r4_columns_core (headers : List String) (records : List (List String)) :
    List (List String) :=
  (List.range headers.length).map (fun i =>
    headers.getD i "" :: records.map (fun record => record.getD i ""))

/-- Accumulator construction including its failure mode: the csv reader is
strict (`flexible` not set), so a record whose field count differs from the
header's is an error and `record.unwrap()` (line 139) panics, modelled as
`none`. -/
def r4_columns (headers : List String) (records : List (List String)) :
    Option (List (List String)) :=
  if records.all (fun record => record.length == headers.length) then
    some (r4_columns_core headers records)
  else none

/-- The retained columns of `run_r4` (lines 143-146): accumulators whose first
element (the label) is non-empty. -/
def r4_retained (headers : List String) (records : List (List String)) :
    List (List String) :=
  (r4_columns_core headers records).filter (fun col => !(col.headD "").isEmpty)

/-- Columns paired with their sort keys; `none` when some key computation
panics. -/
def r4_keyed (cols : List (List String)) : Option (List (Int × List String)) :=
  optionMapList (fun col => (r4_key (r4_label col)).map (fun k => (k, col))) cols

/-- Comparison used for the stable sort: by key. -/
def r4_rel : (Int × List String) → (Int × List String) → Prop := fun a b => a.1 ≤ b.1

instance : DecidableRel r4_rel := fun a b => inferInstanceAs (Decidable (a.1 ≤ b.1))

instance : IsTotal (Int × List String) r4_rel := ⟨fun a b => le_total a.1 b.1⟩

instance : IsTrans (Int × List String) r4_rel := ⟨fun _ _ _ => le_trans⟩

/-- `document.sort_by_key(...)` (lines 147-157): a stable sort by the numeric
key.  `sort_by_key` computes keys only inside comparisons, so a list of at
most one column performs no comparison and cannot panic; for two or more
columns every element takes part in at least one comparison, so an
unparsable label is the `expect` panic (`none`). -/
def r4_sort (cols : List (List String)) : Option (List (List String)) :=
  if cols.length ≤ 1 then some cols
  else
    (r4_keyed cols).map (fun kcols =>
      (kcols.insertionSort r4_rel).map (fun p => p.2))

/-- The transpose of `run_r4` (lines 158-180): output headers are the column
labels with the corner cell replaced by three spaces; output body row `r`
collects element `r + 1` of every column (all columns have equal length —
header plus one cell per record). -/
def r4_transpose (document : List (List String)) : List String × List (List String) :=
  match document with
  | [] => ([], [])
  | col0 :: restCols =>
    ("   " :: restCols.map (fun col => col.headD ""),
      restCols.foldl
        (fun rows col => rows.zipWith (fun row c => row ++ [c]) (col.drop 1))
        ((col0.drop 1).map (fun c => [c])))

/-- Outcome of a Rust call: a returned value, a returned error
(`anyhow::Result::Err`, e.g. via `.context(...)`), or a panic
(`unwrap`/`expect`/arithmetic overflow).  A panic is not a value returned to
the caller. -/
inductive RunResult (α : Type) where
  | ok (val : α)
  | err (msg : String)
  | panicked (msg : String)
  deriving DecidableEq

/-- Whether the outcome is an error value returned through `Result`. -/
def RunResult.isErr {α : Type} : RunResult α → Bool
  | .err _ => true
  | _ => false

/-- `run_r4` (lines 121-189) over the opened source: `file` is `none` when the
source cannot be opened (the `context("Couldn't open lfp file")` error path),
otherwise the parsed header record and data records.  Returns the output
filename on success. -/
def run_r4 (source : String) (file : Option (List String × List (List String))) :
    RunResult String :=
  match ascii_output_filename source with
  | none => RunResult.panicked "called Option unwrap on a None value"
  | some output_filename =>
    match file with
    | none => RunResult.err "Couldn't open lfp file"
    | some (headers, records) =>
      match r4_columns headers records with
      | none => RunResult.panicked "csv record of unequal length"
      | some document0 =>
        let document := document0.filter (fun col => !(col.headD "").isEmpty)
        match r4_sort document with
        | none => RunResult.panicked "Couldn't parse wavelength"
        | some sorted =>
          let pair := r4_transpose sorted
          match write_to_file_content pair.1 pair.2 pair.1.length output_filename with
          | none => RunResult.panicked "attempt to subtract with overflow"
          | some _ => RunResult.ok output_filename

/-! Helper lemmas -/

theorem optionMapList_none_of_mem {α β : Type} (f : α → Option β) {l : List α} {a : α}
    (ha : a ∈ l) (hf : f a = none) : optionMapList f l = none := by
  induction l with
  | nil => cases ha
  | cons b t ih =>
    rcases List.mem_cons.mp ha with rfl | ht
    · simp [optionMapList, hf]
    · cases hb : f b
      · simp [optionMapList, hb]
      · simp [optionMapList, hb, ih ht]

theorem optionMapList_mem {α β : Type} {f : α → Option β} :
    ∀ {l : List α} {l' : List β}, optionMapList f l = some l' →
      ∀ b ∈ l', ∃ a ∈ l, f a = some b := by
  intro l
  induction l with
  | nil =>
    intro l' h b hb
    simp only [optionMapList, Option.some_inj] at h
    subst h
    cases hb
  | cons a t ih =>
    intro l' h b hb
    cases ha : f a with
    | none => simp [optionMapList, ha] at h
    | some v =>
      cases ht : optionMapList f t with
      | none => simp [optionMapList, ha, ht] at h
      | some vs =>
        simp only [optionMapList, ha, ht, Option.some_inj] at h
        subst h
        rcases List.mem_cons.mp hb with rfl | hbs
        · exact ⟨a, List.mem_cons_self a t, ha⟩
        · obtain ⟨a', ha', hfa'⟩ := ih ht b hbs
          exact ⟨a', List.mem_cons_of_mem _ ha', hfa'⟩

theorem optionMapList_snd {l : List (Int × List String)}
    (h : ∀ p ∈ l, r4_key (r4_label p.2) = some p.1) :
    optionMapList (fun col => r4_key (r4_label col)) (l.map (fun p => p.2)) =
      some (l.map (fun p => p.1)) := by
  induction l with
  | nil => rfl
  | cons p t ih =>
    have hp := h p (List.mem_cons_self p t)
    have ht := ih (fun q hq => h q (List.mem_cons_of_mem _ hq))
    simp [optionMapList, hp, ht]

theorem filterMap_eq_filter_map {α β : Type} (f : α → Option β) (d : β) :
    ∀ l : List α,
      l.filterMap f = (l.filter (fun a => (f a).isSome)).map (fun a => (f a).getD d) := by
  intro l
  induction l with
  | nil => rfl
  | cons a t ih =>
    cases ha : f a <;> simp [List.filterMap_cons, List.filter_cons, ha, ih]

theorem length_filterMap_countP {α β : Type} (f : α → Option β) :
    ∀ l : List α, (l.filterMap f).length = l.countP (fun a => (f a).isSome) := by
  intro l
  induction l with
  | nil => rfl
  | cons a t ih =>
    cases ha : f a <;> simp [List.filterMap_cons, List.countP_cons, ha, ih]

theorem r4_keyed_key {cols : List (List String)} {kcols : List (Int × List String)}
    (h : r4_keyed cols = some kcols) :
    ∀ p ∈ kcols, r4_key (r4_label p.2) = some p.1 := by
  intro p hp
  obtain ⟨col, _, hfc⟩ := optionMapList_mem h p hp
  rcases Option.map_eq_some'.mp hfc with ⟨k, hk, hpair⟩
  cases hpair
  exact hk

theorem das6_process_record_cons (n : Nat) (d r : ℚ) (c : String) (cs : List String) :
    das6_process_record n d r (c :: cs) = some (toString (das6_time n d r) :: cs) := by
  simp [das6_process_record, List.eraseIdx]

/-- The rows the amended C1 predicts: synthesized time prepended, original
first cell dropped, remaining cells kept in order. -/
def das6_body_spec (sync_delay ns_per_chn : ℚ) : Nat → List (List String) → List (List String)
  | _, [] => []
  | n, record :: rest =>
    (toString (das6_time n sync_delay ns_per_chn) :: record.tail) ::
      das6_body_spec sync_delay ns_per_chn (n + 1) rest

theorem das6_body_from_eq (d r : ℚ) :
    ∀ (records : List (List String)) (n : Nat), (∀ record ∈ records, record ≠ []) →
      das6_body_from d r n records = some (das6_body_spec d r n records) := by
  intro records
  induction records with
  | nil => intro n _; rfl
  | cons record rest ih =>
    intro n h
    obtain ⟨c, cs, rfl⟩ : ∃ c cs, record = c :: cs := by
      cases record with
      | nil => exact absurd rfl (h [] (List.mem_cons_self _ _))
      | cons c cs => exact ⟨c, cs, rfl⟩
    have hrest := ih (n + 1) (fun q hq => h q (List.mem_cons_of_mem _ hq))
    simp [das6_body_from, das6_process_record_cons, hrest, das6_body_spec]

/-! Claim theorems -/

/-- C1 (amended): for every Das6 data record at 0-based index `n`, `run_das6`
produces the output body row by prepending the synthesized time value
`int((n - sync_delay) * ns_per_chn)` as the first cell and removing what was
originally the FIRST cell of the record (after the insertion, `line.remove(1)`
removes the original index-0 cell, not the original index-1 cell); all other
cells are preserved in order. -/
theorem das6_body_removes_first_cell (d r : ℚ) (records : List (List String))
    (h : ∀ record ∈ records, record ≠ []) :
    das6_body d r records = some (das6_body_spec d r 0 records) :=
  das6_body_from_eq d r records 0 h

/-- Witness for `das6_body_removes_first_cell` at a concrete input. -/
theorem das6_body_removes_first_cell_witness :
    (∀ record ∈ [["x", "y", "z"]], record ≠ ([] : List String)) ∧
    das6_body 0 1 [["x", "y", "z"]] = some (das6_body_spec 0 1 0 [["x", "y", "z"]]) :=
  ⟨by decide, das6_body_removes_first_cell 0 1 [["x", "y", "z"]] (by decide)⟩

/-- C1 is false as stated: on the record `["x","y","z"]` at index 0 with
`sync_delay = 0`, `ns_per_chn = 1`, the code produces `["0","y","z"]`
(original first cell removed), while the claim predicts the removal of the
original second cell, i.e. `"0" :: ["x","y","z"].eraseIdx 1 = ["0","x","z"]`. -/
theorem c1_counterexample :
    das6_body 0 1 [["x", "y", "z"]] = some [["0", "y", "z"]] ∧
    (["0", "y", "z"] : List String) ≠ "0" :: List.eraseIdx ["x", "y", "z"] 1 := by
  constructor
  · have h0 : toString (das6_time 0 0 1) = "0" := by
      have ht : das6_time 0 0 1 = 0 := by simp [das6_time, truncQ]
      rw [ht]; rfl
    simp [das6_body, das6_body_from, das6_process_record_cons, h0]
  · decide

/-- C2 (amended): `run_das6` keeps exactly the header cells that contain a
3-digit run, each mapped to its extracted label, plus one trailing
empty-string label; a cell with no 3-digit match is dropped entirely by the
`filter_map` (its `"0"` default is dead code), not mapped to `"0"`. -/
theorem das6_headers_drop_unmatched (headerRecord : List String) :
    das6_headers headerRecord =
      (headerRecord.filter (fun c => (das6_header_label c).isSome)).map
        (fun c => (das6_header_label c).getD "0") ++ [""] := by
  unfold das6_headers
  rw [filterMap_eq_filter_map das6_header_label "0"]

/-- C2 is false as stated: for the header row `["t","500"]` (cell `"t"` has no
3-digit match) the constructed header sequence is `["500",""]` — the
unmatched cell is dropped rather than mapped to `"0"`, so the output does not
have one label per input header cell plus a trailing blank. -/
theorem c2_counterexample :
    das6_headers ["t", "500"] = ["500", ""] ∧
    (das6_headers ["t", "500"]).length ≠ List.length ["t", "500"] + 1 := by
  decide

/-- C8 (amended): for every Das6 header row, the `intervalnr` emitted by
`run_das6` equals the number of header cells containing a 3-digit run (the
`filter_map` drops unmatched cells, one trailing blank is pushed, and the
writer subtracts one), not the raw header length `H`. -/
theorem das6_intervalnr_counts_matches (headerRecord : List String) :
    das6_intervalnr headerRecord =
      some (headerRecord.countP (fun c => (das6_header_label c).isSome)) := by
  unfold das6_intervalnr das6_headers writeIntervalnr
  have hlen : (headerRecord.filterMap das6_header_label ++ [""]).length =
      headerRecord.countP (fun c => (das6_header_label c).isSome) + 1 := by
    simp [length_filterMap_countP]
  rw [hlen]
  simp

/-- C8 is false as stated: for the valid header row `["t","500"]` of length
`H = 2`, the emitted `intervalnr` is `1` (the number of 3-digit-matching
cells), not `H = 2`. -/
theorem c8_counterexample :
    das6_intervalnr ["t", "500"] = some 1 ∧ (1 : Nat) ≠ List.length ["t", "500"] := by
  decide

/-- The LFP input of C3, parsed as comma-delimited records:
`"550,551\nfoo\n...8 filler lines...\n1,2\n3,4\n"`. -/
def c3_input : List (List String) :=
  [["550", "551"], ["foo"], ["f1"], ["f2"], ["f3"], ["f4"], ["f5"], ["f6"], ["f7"], ["f8"],
    ["1", "2"], ["3", "4"]]

/-- C3 is false as stated: on that input the csv reader consumes the first
line as its header row, so `run_lfp`'s header extraction is applied to the
second line `"foo"` and yields `[""]`, not `["550","551"]` (the body is
`[["1","2"],["3","4"]]` as claimed); and since the extracted header row has
length 1, the writer's `usize` arithmetic underflows, so no `intervalnr` is
emitted at all (`run_lfp` panics) — in particular `intervalnr` is not 1. -/
theorem c3_counterexample :
    lfp_parse c3_input = some ([""], [["1", "2"], ["3", "4"]]) ∧
    ([""] : List String) ≠ ["550", "551"] ∧
    run_lfp "a.txt" c3_input = none := by
  decide

/-- C3 (amended): on the C3 input, header extraction is applied to the second
file line `"foo"` and yields `[""]`; the body is `[["1","2"],["3","4"]]`; and
the conversion produces no `intervalnr` (the header count 1 makes
`line_number - 1` underflow, a panic). -/
theorem c3_actual_behaviour :
    run_lfp "a.txt" c3_input = none ∧
    lfp_headers ["foo"] = [""] ∧
    lfp_parse c3_input = some (lfp_headers ["foo"], [["1", "2"], ["3", "4"]]) := by
  decide

/-- C7: for every valid LFP input whose extracted header row has length
`H ≥ 2` and that has at least 9 records after the csv header row, the
`intervalnr` emitted by `run_lfp` equals `H - 2` (the importer passes
`H - 1` to the writer, which subtracts one more).  `H ≥ 2` is what "valid"
requires: with `H = 1` the writer's subtraction underflows and no
`intervalnr` is emitted. -/
theorem run_lfp_intervalnr_eq (source out : String) (r0 r1 : List String)
    (rest : List (List String)) (ho : ascii_output_filename source = some out)
    (hH : 2 ≤ r1.length) (_hdata : 8 ≤ rest.length) :
    run_lfp source (r0 :: r1 :: rest) =
      some (out, lfp_headers r1, rest.drop 8, r1.length - 2) := by
  have hlen : (lfp_headers r1).length = r1.length := List.length_map _ _
  have hne : (lfp_headers r1).isEmpty = false := by
    cases hh : lfp_headers r1 with
    | nil =>
      rw [hh] at hlen
      simp only [List.length_nil] at hlen
      omega
    | cons a t => rfl
  have hiv : writeIntervalnr ((lfp_headers r1).length - 1) = some (r1.length - 2) := by
    unfold writeIntervalnr
    rw [hlen, if_neg (by omega)]
    congr 1
  unfold run_lfp
  rw [ho]
  simp only [lfp_parse]
  rw [hne]
  simp only [Bool.false_eq_true, if_false]
  rw [hiv]

/-- Witness for `run_lfp_intervalnr_eq` at a concrete input. -/
theorem run_lfp_intervalnr_eq_witness :
    2 ≤ List.length ["550", "551"] ∧
    run_lfp "a.txt"
        (["h"] :: ["550", "551"] ::
          [["f1"], ["f2"], ["f3"], ["f4"], ["f5"], ["f6"], ["f7"], ["f8"]]) =
      some ("a.ascii", lfp_headers ["550", "551"],
        ([["f1"], ["f2"], ["f3"], ["f4"], ["f5"], ["f6"], ["f7"], ["f8"]] :
          List (List String)).drop 8,
        List.length ["550", "551"] - 2) :=
  ⟨by decide,
    run_lfp_intervalnr_eq "a.txt" "a.ascii" ["h"] ["550", "551"]
      [["f1"], ["f2"], ["f3"], ["f4"], ["f5"], ["f6"], ["f7"], ["f8"]]
      (by decide) (by decide) (by decide)⟩

/-- C4 (amended): provided some retained column is labeled `"t"` and every
other retained label parses to a strictly positive integer, the sorted column
sequence produced by `run_r4` has the `"t"` column first and its key sequence
(`"t"` as `0`, other labels as their integer value) in non-decreasing order.
As stated the claim is false: a label parsing to a non-positive integer (e.g.
`"-5"`) sorts before `"t"`. -/
theorem r4_sort_t_first (cols : List (List String)) (kcols : List (Int × List String))
    (out : List (List String))
    (hk : r4_keyed cols = some kcols) (hs : r4_sort cols = some out)
    (ht : ∃ p ∈ kcols, r4_label p.2 = "t")
    (hpos : ∀ p ∈ kcols, r4_label p.2 ≠ "t" → 0 < p.1) :
    r4_label (out.headD []) = "t" ∧
    ∃ ks : List Int, optionMapList (fun col => r4_key (r4_label col)) out = some ks ∧
      ks.Sorted (· ≤ ·) := by
  have keyinv := r4_keyed_key hk
  by_cases hlen : cols.length ≤ 1
  · -- at most one column: `sort_by_key` performs no comparison and `out = cols`
    have hout : out = cols := by
      unfold r4_sort at hs
      rw [if_pos hlen] at hs
      exact (Option.some_inj.mp hs).symm
    subst hout
    cases out with
    | nil =>
      have hkc : kcols = [] := by
        have h0 : r4_keyed [] = some [] := rfl
        rw [h0] at hk
        exact (Option.some_inj.mp hk).symm
      obtain ⟨p, hp, _⟩ := ht
      rw [hkc] at hp
      cases hp
    | cons c cs =>
      cases cs with
      | cons c2 cs2 => simp at hlen
      | nil =>
        cases hfc : r4_key (r4_label c) with
        | none =>
          exfalso
          have : r4_keyed [c] = none := by
            simp [r4_keyed, optionMapList, hfc]
          rw [this] at hk
          cases hk
        | some k =>
          have hkc : kcols = [(k, c)] := by
            have : r4_keyed [c] = some [(k, c)] := by
              simp [r4_keyed, optionMapList, hfc]
            rw [this] at hk
            exact (Option.some_inj.mp hk).symm
          obtain ⟨p, hp, hpt⟩ := ht
          rw [hkc] at hp
          rcases List.mem_singleton.mp hp with rfl
          refine ⟨hpt, [k], ?_, List.sorted_singleton k⟩
          simp [optionMapList, hfc]
  · -- two or more columns: every key is computed and the sort is performed
    unfold r4_sort at hs
    rw [if_neg hlen, hk] at hs
    simp only [Option.map_some'] at hs
    have hout : out = (kcols.insertionSort r4_rel).map (fun p => p.2) :=
      (Option.some_inj.mp hs).symm
    subst hout
    have hperm : List.Perm (kcols.insertionSort r4_rel) kcols :=
      List.perm_insertionSort r4_rel kcols
    have hsorted : List.Sorted r4_rel (kcols.insertionSort r4_rel) :=
      List.sorted_insertionSort r4_rel kcols
    have hinv : ∀ p ∈ kcols.insertionSort r4_rel, r4_key (r4_label p.2) = some p.1 :=
      fun p hp => keyinv p (hperm.subset hp)
    constructor
    · cases hskl : kcols.insertionSort r4_rel with
      | nil =>
        exfalso
        have hkc : kcols = [] := by
          have := hperm.length_eq
          rw [hskl] at this
          exact List.length_eq_zero.mp this.symm
        obtain ⟨p, hp, _⟩ := ht
        rw [hkc] at hp
        cases hp
      | cons hd tl =>
        simp only [List.map_cons, List.headD_cons]
        by_contra hne
        have hhd_mem : hd ∈ kcols := hperm.subset (hskl ▸ List.mem_cons_self hd tl)
        have hhd_pos : 0 < hd.1 := hpos hd hhd_mem hne
        obtain ⟨p, hp, hpt⟩ := ht
        have hp_skl : p ∈ kcols.insertionSort r4_rel := hperm.mem_iff.mpr hp
        have hp_key : p.1 = 0 := by
          have hkp := keyinv p hp
          rw [hpt] at hkp
          have h0 : r4_key "t" = some 0 := by decide
          rw [h0] at hkp
          exact (Option.some_inj.mp hkp).symm
        rw [hskl] at hp_skl
        rcases List.mem_cons.mp hp_skl with rfl | hp_tl
        · exact hne hpt
        · have hrel : r4_rel hd p := by
            rw [hskl] at hsorted
            exact (List.sorted_cons.mp hsorted).1 p hp_tl
          have : hd.1 ≤ p.1 := hrel
          omega
    · exact ⟨(kcols.insertionSort r4_rel).map (fun p => p.1), optionMapList_snd hinv, by
        rw [List.Sorted, List.pairwise_map]
        exact hsorted⟩

/-- Witness for `r4_sort_t_first` at a concrete input. -/
theorem r4_sort_t_first_witness :
    r4_label (([["t", "a"], ["500", "b"]] : List (List String)).headD []) = "t" ∧
    ∃ ks : List Int,
      optionMapList (fun col => r4_key (r4_label col)) [["t", "a"], ["500", "b"]] = some ks ∧
      ks.Sorted (· ≤ ·) :=
  r4_sort_t_first [["500", "b"], ["t", "a"]] [(500, ["500", "b"]), (0, ["t", "a"])]
    [["t", "a"], ["500", "b"]] (by decide) (by decide) (by decide) (by decide)

/-- C4 is false as stated: for an R4 input whose retained columns are labeled
`"t"` and `"-5"` (the latter a valid base-10 integer), the sort places the
`"-5"` column before the `"t"` column, so `"t"` is not first. -/
theorem c4_counterexample :
    r4_sort [["t", "x"], ["-5", "y"]] = some [["-5", "y"], ["t", "x"]] ∧
    r4_label (([["-5", "y"], ["t", "x"]] : List (List String)).headD []) ≠ "t" := by
  decide

/-- C5 (amended): for every R4 input with at least two retained columns one of
whose labels is neither `"t"` nor parseable as a base-10 `i32`, `run_r4` fails
by PANICKING with `"Couldn't parse wavelength"` (the `expect` on line 153) —
the failure is not silent, but it is a panic that aborts the call, not a
`DataError` value returned to the caller through the `Result`. -/
theorem run_r4_unparsable_label_panics (source : String) (headers : List String)
    (records : List (List String)) (out : String)
    (ho : ascii_output_filename source = some out)
    (hrect : records.all (fun record => record.length == headers.length) = true)
    (hlen : 2 ≤ (r4_retained headers records).length)
    (hbad : ∃ col ∈ r4_retained headers records, r4_key (r4_label col) = none) :
    run_r4 source (some (headers, records)) = RunResult.panicked "Couldn't parse wavelength" := by
  have hcols : r4_columns headers records = some (r4_columns_core headers records) := by
    unfold r4_columns
    rw [if_pos hrect]
  have hfold : (r4_columns_core headers records).filter (fun col => !(col.headD "").isEmpty) =
      r4_retained headers records := rfl
  have hsort : r4_sort (r4_retained headers records) = none := by
    unfold r4_sort
    rw [if_neg (by omega)]
    obtain ⟨col, hcol, hkey⟩ := hbad
    have hkeyed : r4_keyed (r4_retained headers records) = none := by
      refine optionMapList_none_of_mem _ hcol ?_
      rw [hkey]
      rfl
    rw [hkeyed]
    rfl
  simp only [run_r4, ho, hcols, hfold, hsort]

/-- Witness for `run_r4_unparsable_label_panics` at a concrete input. -/
theorem run_r4_unparsable_label_panics_witness :
    2 ≤ (r4_retained ["t", "abc", "550"] [["1", "2", "3"]]).length ∧
    run_r4 "in.txt" (some (["t", "abc", "550"], [["1", "2", "3"]])) =
      RunResult.panicked "Couldn't parse wavelength" :=
  ⟨by decide,
    run_r4_unparsable_label_panics "in.txt" ["t", "abc", "550"] [["1", "2", "3"]] "in.ascii"
      (by decide) (by decide) (by decide) (by decide)⟩

/-- C5 is false as stated: on an R4 input with retained columns labeled `"t"`
and `"abc"`, `run_r4` ends in the panic `"Couldn't parse wavelength"`; its
outcome is not an error value returned to the caller (`isErr` is `false`). -/
theorem c5_counterexample :
    run_r4 "in.txt" (some (["t", "abc"], [["1", "2"]])) =
      RunResult.panicked "Couldn't parse wavelength" ∧
    RunResult.isErr (run_r4 "in.txt" (some (["t", "abc"], [["1", "2"]]))) = false := by
  decide

/-- C6: the writer is append-only — for every prior file content and every
pair of successive successful `write_to_file` calls, the content present
before a call is an unchanged prefix of the content after it, so writing
twice leaves both contents in the file. -/
theorem write_to_file_append_only (c0 c1 c2 : String) (hs1 hs2 : List String)
    (b1 b2 : List (List String)) (n1 n2 : Nat) (f1 f2 : String)
    (w1 : write_to_file c0 hs1 b1 n1 f1 = some c1)
    (w2 : write_to_file c1 hs2 b2 n2 f2 = some c2) :
    c0.data <+: c1.data ∧ c1.data <+: c2.data := by
  have key : ∀ (p : String) (hh : List String) (bb : List (List String)) (nn : Nat)
      (ff : String) (q : String), write_to_file p hh bb nn ff = some q → p.data <+: q.data := by
    intro p hh bb nn ff q hw
    unfold write_to_file at hw
    rcases Option.map_eq_some'.mp hw with ⟨c, _, rfl⟩
    rw [String.data_append]
    exact List.prefix_append _ _
  exact ⟨key _ _ _ _ _ _ w1, key _ _ _ _ _ _ w2⟩

/-- Witness for `write_to_file_append_only` at concrete inputs. -/
theorem write_to_file_append_only_witness :
    ("" : String).data <+:
      ("f\nEduardo Gonik\nwavelength explicit\nintervalnr 0\nh\n" : String).data ∧
    ("f\nEduardo Gonik\nwavelength explicit\nintervalnr 0\nh\n" : String).data <+:
      ("f\nEduardo Gonik\nwavelength explicit\nintervalnr 0\nh\nf\nEduardo Gonik\nwavelength explicit\nintervalnr 0\ng\n" : String).data :=
  write_to_file_append_only ""
    "f\nEduardo Gonik\nwavelength explicit\nintervalnr 0\nh\n"
    "f\nEduardo Gonik\nwavelength explicit\nintervalnr 0\nh\nf\nEduardo Gonik\nwavelength explicit\nintervalnr 0\ng\n"
    ["h"] ["g"] [] [] 1 1 "f" "f" (by decide) (by decide)

/-- C10: `write_to_file` computes the emitted interval count as
`line_number - 1` on an unsigned integer, so `line_number = 0` produces no
well-formed `intervalnr` (the subtraction underflows), and that case is
reachable: `run_r4` on an input whose header cells are all empty filters out
every column and calls the writer with count 0, ending in the underflow
panic. -/
theorem writeIntervalnr_zero_underflow :
    writeIntervalnr 0 = none ∧
    run_r4 "in.txt" (some (["", ""], [["a", "b"]])) =
      RunResult.panicked "attempt to subtract with overflow" := by
  decide

theorem splitOnChar_ne_nil (sep : Char) : ∀ cs : List Char, splitOnChar sep cs ≠ [] := by
  intro cs
  cases cs with
  | nil => simp [splitOnChar]
  | cons c rest =>
    simp only [splitOnChar]
    by_cases h : c = sep <;> simp [h]

theorem splitOnChar_append (sep : Char) (a b : List Char) :
    splitOnChar sep (a ++ sep :: b) = splitOnChar sep a ++ splitOnChar sep b := by
  induction a with
  | nil => simp [splitOnChar]
  | cons c rest ih =>
    by_cases h : c = sep
    · simp [splitOnChar, h, ih]
    · rw [List.cons_append]
      simp only [splitOnChar, h, if_false, ih]
      cases hsr : splitOnChar sep rest with
      | nil => exact absurd hsr (splitOnChar_ne_nil sep rest)
      | cons x xs => simp

theorem splitOnChar_no_sep (sep : Char) :
    ∀ cs : List Char, sep ∉ cs → splitOnChar sep cs = [cs] := by
  intro cs
  induction cs with
  | nil => intro _; rfl
  | cons c rest ih =>
    intro h
    have hc : ¬ c = sep := fun e => h (by rw [e]; exact List.mem_cons_self _ _)
    have hr : sep ∉ rest := fun m => h (List.mem_cons_of_mem _ m)
    simp [splitOnChar, hc, ih hr]

theorem string_data_ne {s t : String} (h : s ≠ t) : s.data ≠ t.data :=
  fun hd => h (by cases s; cases t; cases hd; rfl)

/-- C9 (amended): for every source path of the form `dir ++ "/" ++ name` with
a normal final component `name`, the output path returned by `run_lfp` and
`run_r4` (and used for writing) is `name` with its extension substituted by
`.ascii` — the directory prefix of the source path is dropped by the
`file_name()` call, so the output path is NOT the full source path with its
extension substituted. -/
theorem ascii_output_drops_directory (dir name : String)
    (hsep : '/' ∉ name.data) (h1 : name ≠ "") (h2 : name ≠ ".") (h3 : name ≠ "..") :
    ascii_output_filename (dir ++ "/" ++ name) = some (rustStemAscii name) := by
  have hdata : (dir ++ "/" ++ name).data = dir.data ++ '/' :: name.data := by
    rw [String.data_append, String.data_append]
    rw [List.append_assoc]
    rfl
  have hsplit : splitOnChar '/' (dir ++ "/" ++ name).data =
      splitOnChar '/' dir.data ++ [name.data] := by
    rw [hdata, splitOnChar_append, splitOnChar_no_sep '/' name.data hsep]
  have hne : name.data ≠ [] := by
    intro e
    exact h1 (by cases name; cases e; rfl)
  have hnd : name.data ≠ ['.'] := by
    intro e
    exact h2 (by cases name; cases e; rfl)
  have hndd : ¬ name.data = ['.', '.'] := by
    intro e
    exact h3 (by cases name; cases e; rfl)
  have hkeep : [name.data].filter (fun c => !(c.isEmpty || c == ['.'])) = [name.data] := by
    simp [List.filter_cons, List.isEmpty_iff, hne, hnd]
  have hfn : rustFileName (dir ++ "/" ++ name) = some name := by
    unfold rustFileName
    rw [hsplit, List.filter_append, hkeep]
    show (match ((splitOnChar '/' dir.data).filter (fun c => !(c.isEmpty || c == ['.'])) ++
          [name.data]).getLast? with
      | none => none
      | some last => if last = ['.', '.'] then none else some (String.mk last)) = some name
    rw [List.getLast?_concat]
    show (if name.data = ['.', '.'] then none else some (String.mk name.data)) = some name
    rw [if_neg hndd]
  unfold ascii_output_filename
  rw [hfn]
  rfl

/-- Witness for `ascii_output_drops_directory` at a concrete input. -/
theorem ascii_output_drops_directory_witness :
    '/' ∉ ("sample.txt" : String).data ∧
    ascii_output_filename ("data" ++ "/" ++ "sample.txt") = some (rustStemAscii "sample.txt") :=
  ⟨by decide,
    ascii_output_drops_directory "data" "sample.txt" (by decide) (by decide) (by decide)
      (by decide)⟩

/-- C9 is false as stated: for the source path `"data/sample.txt"`, `run_lfp`
returns (and writes to) the output path `"sample.ascii"`, which is not the
source path with its extension substituted (`"data/sample.ascii"`). -/
theorem c9_counterexample :
    run_lfp "data/sample.txt" [["550"], ["550", "551"]] =
      some ("sample.ascii", ["550", "551"], [], 0) ∧
    ("sample.ascii" : String) ≠ "data/sample.ascii" := by
  decide
